import Mathlib

/-!
Shallow embedding of `src/abscomp.py` (abscomp 0.3.0): a tool that fetches two
Audiobookshelf library catalogs, reindexes them by ASIN, partitions one
against the other, and writes CSV/JSON output files.

Modelling conventions:
* A Python `dict[str, Book]` is an insertion-ordered association list
  `List (String × Book)`; dict iteration is list iteration, dict key
  membership is `hasKey`, and dict assignment of a fresh key appends.
* Loops with accumulators become `List.foldl` over the translated loop body.
* Filesystem writes are reified as a returned list of `OutFile` values.
* Python `KeyError` on a missing JSON field becomes an `Except` error value.
-/

/-- `Book` dataclass (`@dataclass(eq=True, frozen=True)`), src/abscomp.py
lines 40-53: the ten fields in declaration order. -/
structure Book where
  id : String
  title : String
  author : String
  series : String
  year : String
  asin : String
  isbn : String
  added : String
  files : String
  size : String
deriving DecidableEq

/-- A `dict[str, Book]` as an insertion-ordered association list. -/
abbrev Catalog := List (String × Book)

/-- Python `k in d` key-membership test on a dict. -/
def hasKey (lib : Catalog) (k : String) : Bool :=
  lib.any (fun kv => kv.1 == k)

/-- Body of the `for ab_one in lib_one` loop of `compare_libs`
(src/abscomp.py lines 240-244): a key also present in `lib_two` is appended
to `both_books`, otherwise to `missing_books`; the stored value is
`lib_one[ab_one]`, i.e. the pair's own record. -/
def compareStep (lib_two : Catalog) (acc : Catalog × Catalog) (ab_one : String × Book) :
    Catalog × Catalog :=
  if hasKey lib_two ab_one.1 then (acc.1 ++ [ab_one], acc.2)
  else (acc.1, acc.2 ++ [ab_one])

/-- `compare_libs` (src/abscomp.py lines 218-248). Returns the pair
(`both_books`, `missing_books`), matching the returned dict
`{'both': both_books, 'missing': missing_books}`. -/
def compare_libs (lib_one lib_two : Catalog) : Catalog × Catalog :=
  lib_one.foldl (compareStep lib_two) ([], [])

/-- Body of the asin-reindexing loops in `main` (src/abscomp.py lines
306-311): `if ab.asin and ab.asin not in lib_asin: lib_asin[ab.asin] = ab`.
String truthiness is non-emptiness. -/
def reindexStep (lib_asin : Catalog) (ab : Book) : Catalog :=
  if ab.asin ≠ "" ∧ ¬ hasKey lib_asin ab.asin then lib_asin ++ [(ab.asin, ab)]
  else lib_asin

/-- The asin reindexing of `main` (src/abscomp.py lines 303-311), applied to
the value sequence `lib.values()` of a primary-keyed catalog. -/
def reindex (books : List Book) : Catalog :=
  books.foldl reindexStep []

/-- Reindexing of a primary-keyed catalog: `main` iterates `lib.values()`. -/
def reindex_lib (lib : Catalog) : Catalog :=
  reindex (lib.map Prod.snd)

/- ### Helper lemmas about `compare_libs` -/

theorem hasKey_iff (lib : Catalog) (k : String) :
    hasKey lib k = true ↔ ∃ kv ∈ lib, kv.1 = k := by
  simp [hasKey, List.any_eq_true, beq_iff_eq]

theorem compare_libs_foldl (lib_two : Catalog) (lib_one : Catalog) :
    ∀ acc : Catalog × Catalog,
      lib_one.foldl (compareStep lib_two) acc =
        (acc.1 ++ lib_one.filter (fun kv => hasKey lib_two kv.1),
         acc.2 ++ lib_one.filter (fun kv => !(hasKey lib_two kv.1))) := by
  induction lib_one with
  | nil => intro acc; simp
  | cons kv rest ih =>
    intro acc
    by_cases h : hasKey lib_two kv.1
    · simp [List.foldl_cons, compareStep, h, ih, List.filter_cons, List.append_assoc]
    · simp [List.foldl_cons, compareStep, h, ih, List.filter_cons, List.append_assoc]

theorem compare_libs_both (lib_one lib_two : Catalog) :
    (compare_libs lib_one lib_two).1 = lib_one.filter (fun kv => hasKey lib_two kv.1) := by
  simp [compare_libs, compare_libs_foldl]

theorem compare_libs_missing (lib_one lib_two : Catalog) :
    (compare_libs lib_one lib_two).2 = lib_one.filter (fun kv => !(hasKey lib_two kv.1)) := by
  simp [compare_libs, compare_libs_foldl]

/-- Claim C1: `compare_libs` partitions `lib_one` exactly: `both` and
`missing` together are a permutation of `lib_one` (no loss, no duplication,
no added keys); a pair of `lib_one` lands in `both` exactly when its key is a
key of `lib_two` and in `missing` otherwise; every output pair is a pair of
`lib_one` itself, so the values are `lib_one`'s own records. -/
theorem compare_libs_partitions (left right : Catalog) :
    ((compare_libs left right).1 ++ (compare_libs left right).2).Perm left
    ∧ (∀ k b, (k, b) ∈ (compare_libs left right).1 ↔ ((k, b) ∈ left ∧ hasKey right k = true))
    ∧ (∀ k b, (k, b) ∈ (compare_libs left right).2 ↔ ((k, b) ∈ left ∧ hasKey right k = false)) := by
  refine ⟨?_, ?_, ?_⟩
  · rw [compare_libs_both, compare_libs_missing]
    exact List.filter_append_perm _ left
  · intro k b
    rw [compare_libs_both]
    simp [List.mem_filter]
  · intro k b
    rw [compare_libs_missing]
    simp [List.mem_filter]

/- ### Helper lemmas about `reindex` -/

theorem hasKey_append_single (lib : Catalog) (k a : String) (v : Book) :
    hasKey (lib ++ [(k, v)]) a = (hasKey lib a || k == a) := by
  simp [hasKey, List.any_append]

theorem pair_mem_append_single (lib : Catalog) (k a : String) (v b : Book) :
    (a, b) ∈ lib ++ [(k, v)] ↔ ((a, b) ∈ lib ∨ (a = k ∧ b = v)) := by
  simp [List.mem_append, Prod.ext_iff]

theorem reindex_foldl_mem (books : List Book) :
    ∀ (acc : Catalog) (a : String) (b : Book),
      (a, b) ∈ books.foldl reindexStep acc ↔
        ((a, b) ∈ acc ∨
          (hasKey acc a = false ∧ a ≠ "" ∧
            books.find? (fun x => x.asin == a) = some b)) := by
  induction books with
  | nil =>
    intro acc a b
    simp
  | cons x rest ih =>
    intro acc a b
    rw [List.foldl_cons]
    by_cases hx : x.asin ≠ "" ∧ ¬ hasKey acc x.asin
    · rw [show reindexStep acc x = acc ++ [(x.asin, x)] by
        simp only [reindexStep]; rw [if_pos hx]]
      rw [ih]
      by_cases ha : x.asin = a
      · subst ha
        rw [List.find?_cons_of_pos _ (by simp)]
        have h1 : hasKey (acc ++ [(x.asin, x)]) x.asin = true := by
          simp [hasKey_append_single]
        have h2 : hasKey acc x.asin = false := by
          simpa using hx.2
        simp only [pair_mem_append_single, h1, h2, Option.some.injEq]
        constructor
        · rintro ((h | ⟨h, hb⟩) | ⟨hfalse, _⟩)
          · exact Or.inl h
          · exact Or.inr ⟨trivial, hx.1, hb.symm⟩
          · simp at hfalse
        · rintro (h | ⟨_, _, hb⟩)
          · exact Or.inl (Or.inl h)
          · exact Or.inl (Or.inr ⟨trivial, hb.symm⟩)
      · rw [List.find?_cons_of_neg _ (by simp [ha])]
        have h1 : hasKey (acc ++ [(x.asin, x)]) a = hasKey acc a := by
          simp [hasKey_append_single, ha]
        have h2 : ¬(a = x.asin ∧ b = x) := fun h => ha h.1.symm
        simp only [pair_mem_append_single, h1, h2, or_false]
    · rw [show reindexStep acc x = acc by
        simp only [reindexStep]; rw [if_neg hx]]
      rw [ih]
      by_cases ha : x.asin = a
      · subst ha
        rw [List.find?_cons_of_pos _ (by simp)]
        rcases not_and_or.1 hx with h | h
        · have he : x.asin = "" := by simpa using h
          simp [he]
        · have hk : hasKey acc x.asin = true := by simpa using h
          simp [hk]
      · rw [List.find?_cons_of_neg _ (by simp [ha])]

theorem reindex_mem (books : List Book) (a : String) (b : Book) :
    (a, b) ∈ reindex books ↔
      (a ≠ "" ∧ books.find? (fun x => x.asin == a) = some b) := by
  rw [reindex, reindex_foldl_mem]
  simp [hasKey]

/-- Claim C2: the asin reindexing keeps exactly the first-encountered record
per asin (a pair `(a, b)` is in the output exactly when `a` is non-empty and
`b` is the first book of the input whose asin is `a`), and every record it
stores has a non-empty asin, so empty-asin records are dropped. Later
duplicates are absent from the output (neither merged nor overwritten), and
`reindex` is a total function, so no error is raised. -/
theorem reindex_first_seen_wins (books : List Book) :
    (∀ a b, (a, b) ∈ reindex books ↔
      (a ≠ "" ∧ books.find? (fun x => x.asin == a) = some b))
    ∧ (∀ a b, (a, b) ∈ reindex books → b.asin ≠ "") := by
  refine ⟨fun a b => reindex_mem books a b, fun a b h => ?_⟩
  rcases (reindex_mem books a b).1 h with ⟨hne, hf⟩
  have hba := List.find?_some hf
  simp only [beq_iff_eq] at hba
  rw [hba]
  exact hne

theorem reindexStep_length (acc : Catalog) (x : Book) :
    (reindexStep acc x).length ≤ acc.length + 1 := by
  unfold reindexStep
  split <;> simp

theorem reindex_foldl_length (books : List Book) :
    ∀ acc : Catalog, (books.foldl reindexStep acc).length ≤ acc.length + books.length := by
  induction books with
  | nil => intro acc; simp
  | cons x rest ih =>
    intro acc
    have h1 := ih (reindexStep acc x)
    have h2 := reindexStep_length acc x
    simp only [List.foldl_cons, List.length_cons]
    omega

/-- Claim C3: reindexing a primary-keyed catalog yields a catalog of size at
most the input's size, and every record in the output is stored under a key
equal to that record's own asin field. -/
theorem reindex_size_le_and_key_is_asin (lib : Catalog) :
    (reindex_lib lib).length ≤ lib.length
    ∧ ∀ a b, (a, b) ∈ reindex_lib lib → a = b.asin := by
  constructor
  · have h := reindex_foldl_length (lib.map Prod.snd) []
    simpa [reindex_lib, reindex] using h
  · intro a b hmem
    rcases (reindex_mem _ a b).1 hmem with ⟨hne, hf⟩
    have hba := List.find?_some hf
    simp only [beq_iff_eq] at hba
    exact hba.symm

/- ### Key-set symmetry of `compare_libs` -/

theorem mem_both_keys (l r : Catalog) (k : String) :
    k ∈ (compare_libs l r).1.map Prod.fst ↔ (hasKey l k = true ∧ hasKey r k = true) := by
  rw [compare_libs_both]
  constructor
  · intro h
    rcases List.mem_map.1 h with ⟨kv, hkv, hfst⟩
    rcases List.mem_filter.1 hkv with ⟨hmem, hkeyr⟩
    subst hfst
    exact ⟨(hasKey_iff l kv.1).2 ⟨kv, hmem, rfl⟩, hkeyr⟩
  · rintro ⟨hl, hr⟩
    rcases (hasKey_iff l k).1 hl with ⟨kv, hmem, hfst⟩
    refine List.mem_map.2 ⟨kv, List.mem_filter.2 ⟨hmem, ?_⟩, hfst⟩
    rw [hfst]
    exact hr

/-- Claim C4: a key appears among the keys of `compare_libs lib_one lib_two`'s
`both` output exactly when it appears among the keys of
`compare_libs lib_two lib_one`'s `both` output: the intersection is symmetric
by key, even though each direction carries its own side's records. -/
theorem compare_libs_both_keys_symm (left right : Catalog) (k : String) :
    k ∈ (compare_libs left right).1.map Prod.fst ↔
      k ∈ (compare_libs right left).1.map Prod.fst := by
  rw [mem_both_keys, mem_both_keys, and_comm]

/- ### Concrete records used in witnesses and counterexamples -/

/-- An example book with asin `X`. -/
def bkA : Book :=
  ⟨"id-1", "Title One", "Author One", "", "", "X", "", "", "", ""⟩

/-- An example book with an empty asin. -/
def bkE : Book :=
  ⟨"id-2", "Title Two", "Author Two", "", "", "", "", "", "", ""⟩

/-- An example book that duplicates `bkA`'s asin `X` under a distinct id. -/
def bkD : Book :=
  ⟨"id-3", "Title Three", "Author Three", "", "", "X", "", "", "", ""⟩

/-- An example book with asin `Y`. -/
def bkY : Book :=
  ⟨"id-4", "Title Four", "Author Four", "", "", "Y", "", "", "", ""⟩

/-- Witness for claim C2 at a concrete catalog containing an empty-asin book
and an asin collision. -/
theorem reindex_first_seen_wins_witness :
    ("X", bkA) ∈ reindex [bkA, bkE, bkD] ∧ bkA.asin ≠ "" := by
  have h := reindex_first_seen_wins [bkA, bkE, bkD]
  have hmem : ("X", bkA) ∈ reindex [bkA, bkE, bkD] :=
    (h.1 "X" bkA).mpr ⟨by decide, by decide⟩
  exact ⟨hmem, h.2 "X" bkA hmem⟩

/-- Witness for claim C3 at a concrete two-entry catalog. -/
theorem reindex_size_le_and_key_is_asin_witness :
    (reindex_lib [("id-1", bkA), ("id-3", bkD)]).length ≤ 2 ∧ "X" = bkA.asin := by
  have h := reindex_size_le_and_key_is_asin [("id-1", bkA), ("id-3", bkD)]
  exact ⟨h.1, h.2 "X" bkA (by decide)⟩

/- ### Output writer (`write_output`, src/abscomp.py lines 182-214) -/

/-- `dataclasses.asdict` on a `Book`: the ten fields in declaration order. -/
def asdict (b : Book) : List (String × String) :=
  [("id", b.id), ("title", b.title), ("author", b.author), ("series", b.series),
   ("year", b.year), ("asin", b.asin), ("isbn", b.isbn), ("added", b.added),
   ("files", b.files), ("size", b.size)]

/-- A file written by `write_output`, reified: a CSV file is a header row
plus data rows, a JSON file is the `content_json` mapping. -/
inductive OutFile where
  | csvFile (name : String) (header : List String) (rows : List (List String))
  | jsonFile (name : String) (content : List (String × List (String × String)))
deriving DecidableEq

/-- Whether an `OutFile` is a CSV file. -/
def OutFile.isCsv : OutFile → Bool
  | .csvFile _ _ _ => true
  | .jsonFile _ _ => false

/-- Whether an `OutFile` is a JSON file. -/
def OutFile.isJson : OutFile → Bool
  | .csvFile _ _ _ => false
  | .jsonFile _ _ => true

/-- `FILEBASE` (src/abscomp.py line 32), parameterized by the current date
string `NOW`. -/
def FILEBASE (now : String) : String :=
  "abscomp_books_" ++ now ++ "_"

/-- The header row written at src/abscomp.py line 201. -/
def csvHeader : List String :=
  ["Title", "Author", "Series", "Year", "asin", "isbn"]

/-- One CSV data row (src/abscomp.py line 204):
`[*asdict(obj=audiobook).values()]`, i.e. all ten field values of the record
in declaration order. -/
def csvRow (b : Book) : List String :=
  (asdict b).map Prod.snd

/-- `write_output` (src/abscomp.py lines 182-214), with the filesystem
effect reified as the returned list of written files: if `flag_c` is set it
writes `{FILEBASE}{out_type}.csv` with the header row and one `csvRow` per
record of `contents` (in order), then if `flag_j` is set it writes
`{FILEBASE}{out_type}.json` holding `asdict` of every record keyed as in
`contents`. -/
def write_output (filebase : String) (contents : Catalog) (out_type : String)
    (flag_j flag_c : Bool) : List OutFile :=
  (if flag_c then
    [OutFile.csvFile (filebase ++ out_type ++ ".csv") csvHeader
      (contents.map (fun kv => csvRow kv.2))]
   else []) ++
  (if flag_j then
    [OutFile.jsonFile (filebase ++ out_type ++ ".json")
      (contents.map (fun kv => (kv.1, asdict kv.2)))]
   else [])

/- ### Catalog fetcher (`get_library`, src/abscomp.py lines 121-178) -/

/-- One raw entry of the `results` array of the remote API response. Each
field is `Option`al: `none` models the JSON key being absent, in which case
the Python subscript access raises `KeyError`. The fields stand for the
paths accessed at src/abscomp.py lines 162-172: `id`,
`media.metadata.title`, `media.metadata.authorName`,
`media.metadata.seriesName`, `media.metadata.publishedYear`,
`media.metadata.asin`, `media.metadata.isbn`, `addedAt`,
`media.numAudioFiles`, `media.size`. -/
structure RawResult where
  id : Option String
  title : Option String
  authorName : Option String
  seriesName : Option String
  publishedYear : Option String
  asin : Option String
  isbn : Option String
  addedAt : Option String
  numAudioFiles : Option String
  size : Option String
deriving DecidableEq

/-- Error conditions of the fetch: a `KeyError` on a missing field of a raw
record (the spec's `MalformedRecord`), named by the missing field. -/
inductive FetchError where
  | malformedRecord (missingField : String)
deriving DecidableEq

/-- Python dict subscript: the value if the key is present, `KeyError`
otherwise. -/
def require (field : Option String) (name : String) : Except FetchError String :=
  match field with
  | some v => Except.ok v
  | none => Except.error (FetchError.malformedRecord name)

/-- The `Book(...)` construction at src/abscomp.py lines 162-173: each raw
field is subscripted in keyword-argument order; the first absent field
raises, aborting the construction. -/
def mkBook (result : RawResult) : Except FetchError Book := do
  let i ← require result.id "id"
  let t ← require result.title "title"
  let au ← require result.authorName "authorName"
  let se ← require result.seriesName "seriesName"
  let ye ← require result.publishedYear "publishedYear"
  let asn ← require result.asin "asin"
  let isb ← require result.isbn "isbn"
  let ad ← require result.addedAt "addedAt"
  let fi ← require result.numAudioFiles "numAudioFiles"
  let sz ← require result.size "size"
  return ⟨i, t, au, se, ye, asn, isb, ad, fi, sz⟩

/-- Python dict assignment `d[k] = v`: replace the value in place if the key
exists, otherwise append. -/
def dictInsert (lib : Catalog) (k : String) (v : Book) : Catalog :=
  if hasKey lib k then lib.map (fun kv => if kv.1 == k then (k, v) else kv)
  else lib ++ [(k, v)]

/-- The `for result in response.json()['results']` loop of `get_library`
(src/abscomp.py lines 160-173): build each `Book` and store it under its id;
an error from any record aborts the whole loop (the surrounding `except`
clause catches only `json.JSONDecodeError`, so a `KeyError` propagates). -/
def get_libraryAux : List RawResult → Catalog → Except FetchError Catalog
  | [], lib => Except.ok lib
  | result :: rest, lib =>
    match mkBook result with
    | Except.error e => Except.error e
    | Except.ok book => get_libraryAux rest (dictInsert lib book.id book)

/-- `get_library` (src/abscomp.py lines 121-178), abstracted over the parsed
`results` array of the HTTP response. -/
def get_library (results : List RawResult) : Except FetchError Catalog :=
  get_libraryAux results []

/- ### Orchestration (`main`, src/abscomp.py lines 252-358) -/

/-- The three `write_output` calls of `main` (src/abscomp.py lines 319-322)
at the dataset level: each out_type label with the contents passed for it.
`second_compare` (line 317) is computed but used only for the console
summary counts (lines 326-327); neither `missing` set is written. -/
def mainDatasets (lib_one lib_two : Catalog) : List (String × Catalog) :=
  [("both", (compare_libs (reindex_lib lib_one) (reindex_lib lib_two)).1),
   ("one", lib_one),
   ("two_full", lib_two)]

/-- The files `main` writes (src/abscomp.py lines 319-322): `write_output`
on the `both` set of the first comparison, then on the two raw catalogs. -/
def mainWrites (filebase : String) (lib_one lib_two : Catalog)
    (flag_c flag_j : Bool) : List OutFile :=
  write_output filebase (compare_libs (reindex_lib lib_one) (reindex_lib lib_two)).1
      "both" flag_j flag_c
    ++ write_output filebase lib_one "one" flag_j flag_c
    ++ write_output filebase lib_two "two_full" flag_j flag_c

/- ### `compare_libs` with its inputs as explicit state -/

/-- One iteration of the `compare_libs` loop with the caller's two catalogs
threaded as explicit state: the body (src/abscomp.py lines 240-244) only
reads `lib_one` and `lib_two` (a membership test and subscript reads) and
assigns to the local accumulators, so it returns the state it received. -/
def compareRunStep (p : (Catalog × Catalog) × (Catalog × Catalog))
    (ab_one : String × Book) : (Catalog × Catalog) × (Catalog × Catalog) :=
  (compareStep p.2.2 p.1 ab_one, p.2)

/-- Running `compare_libs` on the state holding the two input catalogs:
returns the result paired with the final state. -/
def compare_libs_run (st : Catalog × Catalog) :
    (Catalog × Catalog) × (Catalog × Catalog) :=
  st.1.foldl compareRunStep (([], []), st)

theorem compareRun_foldl (l : List (String × Book)) :
    ∀ acc st : Catalog × Catalog,
      l.foldl compareRunStep (acc, st) = (l.foldl (compareStep st.2) acc, st) := by
  induction l with
  | nil => intro acc st; rfl
  | cons x rest ih =>
    intro acc st
    rw [List.foldl_cons, List.foldl_cons]
    exact ih _ _

/-- Claim C8: `compare_libs` is a pure function of its two inputs: run with
the input catalogs threaded as explicit state it leaves that state untouched
(neither input catalog is mutated), its result is determined by the inputs
alone, and calling it a second time on the state left by the first call
yields an identical result. -/
theorem compare_libs_pure (st : Catalog × Catalog) :
    (compare_libs_run st).2 = st
    ∧ (compare_libs_run st).1 = compare_libs st.1 st.2
    ∧ (compare_libs_run (compare_libs_run st).2).1 = (compare_libs_run st).1 := by
  have h : compare_libs_run st = (compare_libs st.1 st.2, st) := by
    rw [compare_libs_run, compareRun_foldl]
    rfl
  refine ⟨by rw [h], by rw [h], ?_⟩
  have h2 : (compare_libs_run st).2 = st := by rw [h]
  rw [h2]

/-- Claim C9: a `Book` is immutable under every operation of the program —
each record in `reindex`'s output is an element of its input, and each pair
`compare_libs` returns is one of `lib_one`'s own pairs, unmodified — and
equality is structural over all ten fields. (With `eq=True, frozen=True`
Python derives `__hash__` from the same field tuple, so hashing is governed
by the same structural characterization.) -/
theorem book_immutable_structural_eq :
    (∀ b1 b2 : Book, b1 = b2 ↔
      (b1.id = b2.id ∧ b1.title = b2.title ∧ b1.author = b2.author ∧
       b1.series = b2.series ∧ b1.year = b2.year ∧ b1.asin = b2.asin ∧
       b1.isbn = b2.isbn ∧ b1.added = b2.added ∧ b1.files = b2.files ∧
       b1.size = b2.size))
    ∧ (∀ (books : List Book) (a : String) (b : Book),
        (a, b) ∈ reindex books → b ∈ books)
    ∧ (∀ (l r : Catalog) (kv : String × Book),
        (kv ∈ (compare_libs l r).1 ∨ kv ∈ (compare_libs l r).2) → kv ∈ l) := by
  refine ⟨?_, ?_, ?_⟩
  · intro b1 b2
    constructor
    · rintro rfl
      exact ⟨rfl, rfl, rfl, rfl, rfl, rfl, rfl, rfl, rfl, rfl⟩
    · rintro ⟨h1, h2, h3, h4, h5, h6, h7, h8, h9, h10⟩
      cases b1
      cases b2
      simp_all
  · intro books a b h
    rcases (reindex_mem books a b).1 h with ⟨-, hf⟩
    exact List.mem_of_find?_eq_some hf
  · intro l r kv h
    rcases h with h | h
    · rw [compare_libs_both] at h
      exact (List.mem_filter.1 h).1
    · rw [compare_libs_missing] at h
      exact (List.mem_filter.1 h).1

/-- Witness for claim C9: at concrete inputs, a record returned by
`reindex` and one returned by `compare_libs` are elements of the inputs. -/
theorem book_immutable_structural_eq_witness :
    bkA ∈ [bkA, bkE, bkD] ∧ ("X", bkA) ∈ [("X", bkA), ("Y", bkY)] := by
  have h := book_immutable_structural_eq
  refine ⟨h.2.1 [bkA, bkE, bkD] "X" bkA (by decide), ?_⟩
  exact h.2.2 [("X", bkA), ("Y", bkY)] [("X", bkD)] ("X", bkA) (Or.inl (by decide))

/- ### Error propagation in `get_library` -/

theorem get_libraryAux_ok_all :
    ∀ (results : List RawResult) (acc lib : Catalog),
      get_libraryAux results acc = Except.ok lib →
        ∀ r ∈ results, ∃ b, mkBook r = Except.ok b := by
  intro results
  induction results with
  | nil =>
    intro acc lib _ r hr
    simp at hr
  | cons x rest ih =>
    intro acc lib hok r hr
    cases hmk : mkBook x with
    | error e =>
      rw [get_libraryAux, hmk] at hok
      exact absurd hok (by simp)
    | ok book =>
      rw [get_libraryAux, hmk] at hok
      rcases List.mem_cons.1 hr with rfl | hr
      · exact ⟨book, hmk⟩
      · exact ih _ lib hok r hr

theorem get_libraryAux_error_of_bad :
    ∀ (results : List RawResult) (acc : Catalog) (r : RawResult),
      r ∈ results → (∀ b, mkBook r ≠ Except.ok b) →
        ∃ e, get_libraryAux results acc = Except.error e := by
  intro results
  induction results with
  | nil =>
    intro acc r hr
    simp at hr
  | cons x rest ih =>
    intro acc r hr hbad
    cases hmk : mkBook x with
    | error e =>
      refine ⟨e, ?_⟩
      rw [get_libraryAux, hmk]
    | ok book =>
      rcases List.mem_cons.1 hr with rfl | hr
      · exact absurd hmk (hbad book)
      · rcases ih (dictInsert acc book.id book) r hr hbad with ⟨e, he⟩
        refine ⟨e, ?_⟩
        rw [get_libraryAux, hmk]
        exact he

theorem mkBook_error_of_missing_required (r : RawResult)
    (h : r.id = none ∨ r.title = none ∨ r.authorName = none) :
    ∀ b, mkBook r ≠ Except.ok b := by
  intro b hb
  rcases h with h | h | h
  · simp [mkBook, require, h, Bind.bind, Except.bind] at hb
  · cases hid : r.id <;>
      simp [mkBook, require, h, hid, Bind.bind, Except.bind] at hb
  · cases hid : r.id <;> cases hti : r.title <;>
      simp [mkBook, require, h, hid, hti, Bind.bind, Except.bind] at hb

/-- Claim C7: if any raw record of the `results` array lacks a required
field (id, title, author), the whole fetch fails with a malformed-record
error — the error is propagated, not swallowed — and there is no per-record
skip-and-continue: whenever `get_library` succeeds, every raw record it was
given constructed a `Book`, so a malformed entry can never be silently
dropped. -/
theorem get_library_aborts_on_malformed (results : List RawResult) :
    (∀ r ∈ results, (r.id = none ∨ r.title = none ∨ r.authorName = none) →
      ∃ e, get_library results = Except.error e)
    ∧ (∀ lib, get_library results = Except.ok lib →
      ∀ r ∈ results, ∃ b, mkBook r = Except.ok b) := by
  constructor
  · intro r hr hmiss
    exact get_libraryAux_error_of_bad results [] r hr
      (mkBook_error_of_missing_required r hmiss)
  · intro lib hok r hr
    exact get_libraryAux_ok_all results [] lib hok r hr

/-- A raw record whose required `title` field is absent. -/
def rawBad : RawResult :=
  ⟨some "id-9", none, some "Author Nine", some "", some "", some "", some "",
   some "", some "", some ""⟩

/-- Witness for claim C7: a one-record fetch whose record lacks `title`
fails outright, and the error is the `title` `KeyError`. -/
theorem get_library_aborts_on_malformed_witness :
    (∃ e, get_library [rawBad] = Except.error e)
    ∧ get_library [rawBad] = Except.error (FetchError.malformedRecord "title") := by
  have h := get_library_aborts_on_malformed [rawBad]
  exact ⟨h.1 rawBad (by simp) (Or.inr (Or.inl rfl)), rfl⟩

/-- Claim C10: with both flags false `write_output` writes no file at all,
and each flag independently controls exactly its own file: the written
files split into a csv part governed by `flag_c` alone followed by a json
part governed by `flag_j` alone, the former containing only CSV files and
the latter only JSON files. -/
theorem write_output_flag_frame (filebase : String) (contents : Catalog)
    (out_type : String) (flag_j flag_c : Bool) :
    write_output filebase contents out_type false false = []
    ∧ write_output filebase contents out_type flag_j flag_c =
        write_output filebase contents out_type false flag_c ++
          write_output filebase contents out_type flag_j false
    ∧ (∀ f ∈ write_output filebase contents out_type false flag_c, f.isCsv = true)
    ∧ (∀ f ∈ write_output filebase contents out_type flag_j false, f.isJson = true) := by
  refine ⟨rfl, ?_, ?_, ?_⟩
  · cases flag_j <;> cases flag_c <;> simp [write_output]
  · cases flag_c <;> simp [write_output, OutFile.isCsv]
  · cases flag_j <;> simp [write_output, OutFile.isJson]

/-- Witness for claim C10 at a concrete catalog: no flags means no files,
and the csv-only call writes exactly one file, a CSV one. -/
theorem write_output_flag_frame_witness :
    write_output "fb_" [("X", bkA)] "both" false false = []
    ∧ OutFile.isCsv
        (OutFile.csvFile "fb_both.csv" csvHeader [csvRow bkA]) = true := by
  have h := write_output_flag_frame "fb_" [("X", bkA)] "both" false true
  refine ⟨h.1, h.2.2.1 _ ?_⟩
  simp [write_output]

/-- Claim C5 (evaluating the code at the failing input): for a
comparison-result dataset the writer emits the six-name header but each data
row carries all ten field values in `Book` declaration order, beginning with
`id` — not the claimed six-field tuple (title, author, series, year, asin,
isbn). -/
theorem write_output_row_mismatch :
    write_output (FILEBASE "240204") [("X", bkA)] "both" false true =
      [OutFile.csvFile "abscomp_books_240204_both.csv" csvHeader [csvRow bkA]]
    ∧ csvRow bkA = ["id-1", "Title One", "Author One", "", "", "X", "", "", "", ""]
    ∧ csvHeader.length = 6
    ∧ (csvRow bkA).length = 10 := by
  exact ⟨rfl, rfl, rfl, rfl⟩

/- ### What `main` writes -/

/-- Library one for the C6 counterexample: a single book with asin `X`. -/
def exLib1 : Catalog := [("id-1", bkA)]

/-- Library two for the C6 counterexample: a single book with asin `Y`. -/
def exLib2 : Catalog := [("id-4", bkY)]

/-- Counterexample to claim C6: on a concrete run both missing deltas are
non-empty, yet `main` hands the writer only three datasets — the shared
`both` set and the two raw catalogs — and neither missing delta is among the
written contents. -/
theorem main_missing_deltas_not_written :
    mainDatasets exLib1 exLib2 = [("both", []), ("one", exLib1), ("two_full", exLib2)]
    ∧ (compare_libs (reindex_lib exLib1) (reindex_lib exLib2)).2 = [("X", bkA)]
    ∧ (compare_libs (reindex_lib exLib2) (reindex_lib exLib1)).2 = [("Y", bkY)]
    ∧ [("X", bkA)] ∉ (mainDatasets exLib1 exLib2).map Prod.snd
    ∧ [("Y", bkY)] ∉ (mainDatasets exLib1 exLib2).map Prod.snd := by
  refine ⟨rfl, rfl, rfl, by decide, by decide⟩

/-- Claim C6 (amended): each successful run with output enabled emits
exactly three logical datasets — the shared `both` set of the first
comparison (library one's asin-keyed records whose asin is also in library
two's view) and the two raw full catalogs, labelled `both`, `one` and
`two_full`; the two missing deltas are computed and their sizes reported on
the console, but they are not written to files. -/
theorem main_emits_three_datasets (filebase : String) (lib_one lib_two : Catalog)
    (flag_c flag_j : Bool) :
    (mainDatasets lib_one lib_two).map Prod.fst = ["both", "one", "two_full"]
    ∧ (mainDatasets lib_one lib_two).map Prod.snd =
        [(compare_libs (reindex_lib lib_one) (reindex_lib lib_two)).1, lib_one, lib_two]
    ∧ mainWrites filebase lib_one lib_two flag_c flag_j =
        write_output filebase
            (compare_libs (reindex_lib lib_one) (reindex_lib lib_two)).1
            "both" flag_j flag_c
          ++ write_output filebase lib_one "one" flag_j flag_c
          ++ write_output filebase lib_two "two_full" flag_j flag_c := by
  exact ⟨rfl, rfl, rfl⟩
